import Mathlib

/-!
# Verification of the KeyDeriver component (BRC-42 style key derivation)

This file embeds the `KeyDeriver` class (counterparty normalization,
invoice-number construction and validation, public/private/symmetric key
derivation, and secret revelation) and proves the correctness laws stated
for it.

The elliptic-curve primitive library (`PrivateKey`, `PublicKey`,
`SymmetricKey`, `Hash`, `Utils`) is an external collaborator of the
component and its code is not part of the embedded source; it is modelled
from the spec at its interface.  The curve group is cyclic of prime order
`n`, so it is represented exactly by the exponents of the base point: a
point is identified with its discrete logarithm in `ZMod n`, the base
point is `1`, scalar multiplication is ring multiplication.  Hashing and
byte encodings are modelled as concrete deterministic injections; none of
the theorems below depend on anything about them except determinism.
-/

namespace TsSdk

/-- Modelled from the spec: the order of the curve primitive library's
group (secp256k1's group order); private scalars live in `ZMod n`. -/
def n : ℕ := 115792089237316195423570985008687907852837564279074904382605163141518161494337

instance : NeZero n := ⟨by norm_num [n]⟩

/-- A private scalar ("a valid scalar within curve order"). -/
abbrev Scalar := ZMod n

/-- Modelled from the spec: a point of the prime-order curve group,
represented by its discrete logarithm with respect to the base point
(exact, since the group is cyclic of order `n`).  The point at infinity
is `0`. -/
abbrev Point := ZMod n

/-- The curve's base point `G` (discrete-log representation: exponent 1). -/
def basePoint : Point := 1

/-- Modelled from the spec: `PrivateKey.toPublicKey` — the public point
corresponding to a private scalar, `k × G`. -/
def PrivateKey.toPublicKey (k : Scalar) : Point := k * basePoint

/-- Modelled from the spec: Diffie-Hellman shared-point computation
between a private scalar and a public point, `k × P`. -/
def dh (k : Scalar) (p : Point) : Point := k * p

/-- Modelled from the spec: on-curve validation of a public point.  In the
discrete-log representation every representable value is a group element,
so validation always succeeds. -/
def PublicKey.validate (_p : Point) : Bool := true

/-- Modelled from the spec: compressed/uncompressed byte encoding of a
public point (a concrete injective encoding standing in for SEC format:
a format tag followed by the point's numeric value). -/
def PublicKey.encode (compressed : Bool) (p : Point) : List ℕ :=
  [if compressed then 2 else 4, p.val]

/-- Modelled from the spec: textual serialization of a public point. -/
def PublicKey.toStr (p : Point) : String := toString p.val

/-- Digit-wise decimal parsing of a character list; `none` unless the
list is nonempty and all digits. -/
def parseDecimal (l : List Char) : Option ℕ :=
  if l ≠ [] ∧ l.all Char.isDigit then
    some (l.foldl (fun a c => 10 * a + (c.toNat - 48)) 0)
  else none

/-- Modelled from the spec: `PublicKey.fromString` — parsing a public
point from its textual representation; fails on malformed input. -/
def PublicKey.fromString (s : String) : Option Point :=
  (parseDecimal s.data).map (fun m => (m : ZMod n))

/-- Modelled from the spec: the raw bytes of a shared point's
x-coordinate (a concrete injective function of the point). -/
def xCoordBytes (p : Point) : List ℕ := [p.val]

/-- Modelled from the spec: `Utils.toArray(s, 'utf8')` — UTF-8
string-to-bytes conversion (codepoint encoding; exact on ASCII). -/
def utf8Bytes (s : String) : List ℕ := s.data.map Char.toNat

/-- Modelled from the spec: `Hash.sha256hmac` — SHA-256-based keyed HMAC
over byte sequences, modelled as a concrete deterministic function of the
key and message bytes.  No theorem below depends on its internals. -/
def sha256hmac (key msg : List ℕ) : List ℕ := key.length :: (key ++ 92 :: msg)

/-- Interpreting HMAC output bytes as a scalar modulo the group order. -/
def scalarOfBytes (bs : List ℕ) : Scalar := ((Nat.ofDigits 256 bs : ℕ) : ZMod n)

/-- Modelled from the spec: the child-derivation tweak — "an offset
computed from a counterparty point and a namespace token", computed from
the Diffie-Hellman shared point so that "the same tweak value is reachable
from either side of the relationship". -/
def childOffset (priv : Scalar) (pub : Point) (invoiceNumber : String) : Scalar :=
  scalarOfBytes (sha256hmac (PublicKey.encode true (dh priv pub)) (utf8Bytes invoiceNumber))

/-- Modelled from the spec: `PrivateKey.deriveChild` — child-scalar
derivation of a private key, tweaked by (a public point, a token string). -/
def PrivateKey.deriveChild (k : Scalar) (pub : Point) (invoiceNumber : String) : Scalar :=
  k + childOffset k pub invoiceNumber

/-- Modelled from the spec: `PublicKey.deriveChild` — child-point
derivation of a public key, tweaked by (a private scalar, a token string);
the asymmetric complement of `PrivateKey.deriveChild`. -/
def PublicKey.deriveChild (p : Point) (priv : Scalar) (invoiceNumber : String) : Point :=
  p + childOffset priv p invoiceNumber * basePoint

/-- The hexadecimal digit character for a value below 16. -/
def hexChar (d : ℕ) : Char := if d < 10 then Char.ofNat (48 + d) else Char.ofNat (87 + d)

/-- Little-endian hexadecimal digit characters of a natural number
(`fuel` bounds the recursion and is sufficient whenever `m ≤ fuel`). -/
def hexCharsAux (fuel m : ℕ) : List Char :=
  match fuel with
  | 0 => []
  | fuel + 1 => if m = 0 then [] else hexChar (m % 16) :: hexCharsAux fuel (m / 16)

/-- Modelled from the spec: `PrivateKey.toHex` — hexadecimal textual
serialization of a private scalar. -/
def PrivateKey.toHex (k : Scalar) : String := ⟨(hexCharsAux k.val k.val).reverse⟩

/-- The discriminated error kinds of the component. -/
inductive KDError where
| InvalidCounterparty
| InvalidProtocolID
| InvalidKeyID
| DerivationError
| PolicyViolation
deriving DecidableEq, Repr

deriving instance DecidableEq for Except

/-- The counterparty union type: `PublicKey | PubKeyHex | 'self' | 'anyone'`. -/
inductive Counterparty where
| self
| anyone
| pubKeyHex (s : String)
| pubKey (p : Point)
deriving DecidableEq

/-- A protocol identifier: a pair (security level, protocol name). -/
abbrev WalletProtocol := Int × String

/-- JavaScript `String.prototype.toLowerCase` (character-wise lowering). -/
def jsToLower (s : String) : String := ⟨s.data.map Char.toLower⟩

/-- JavaScript `String.prototype.trim`: strip leading and trailing
whitespace. -/
def jsTrim (s : String) : String :=
  ⟨((s.data.dropWhile Char.isWhitespace).reverse.dropWhile Char.isWhitespace).reverse⟩

/-- JavaScript `String.prototype.startsWith`. -/
def jsStartsWith (s pat : String) : Bool := pat.data.isPrefixOf s.data

/-- JavaScript `String.prototype.endsWith`. -/
def jsEndsWith (s pat : String) : Bool := pat.data.isSuffixOf s.data

/-- The character class of the protocol-name regular expression
`[a-z0-9 ]`. -/
def isProtocolChar (c : Char) : Bool :=
  (('a' ≤ c && c ≤ 'z') || ('0' ≤ c && c ≤ '9') || c = ' ')

/-- `protocolName.includes('  ')`: two consecutive spaces occur. -/
def hasDoubleSpace : List Char → Bool
| [] => false
| [_] => false
| a :: b :: rest => (a = ' ' && b = ' ') || hasDoubleSpace (b :: rest)

/-- `protocolID[1].toLowerCase().trim()` — the normalized (lower-cased,
trimmed) protocol name. -/
def normalizeProtocolName (nm : String) : String := jsTrim (jsToLower nm)

/-- `KeyDeriver.computeInvoiceNumber`, translated from the source.  The
security level is an `Int` (so `Number.isInteger` always holds); the
source's nested length>400 check is flattened to the equivalent single
condition `length > 400 ∧ (startsWith prefix → length > 430)`. -/
def computeInvoiceNumber (protocolID : WalletProtocol) (keyID : String) :
    Except KDError String :=
  if protocolID.1 < 0 ∨ 2 < protocolID.1 then .error .InvalidProtocolID
  else if 800 < keyID.length then .error .InvalidKeyID
  else if keyID.length < 1 then .error .InvalidKeyID
  else if 400 < (normalizeProtocolName protocolID.2).length ∧
      (jsStartsWith (normalizeProtocolName protocolID.2) "specific linkage revelation " = true →
        430 < (normalizeProtocolName protocolID.2).length) then
    .error .InvalidProtocolID
  else if (normalizeProtocolName protocolID.2).length < 5 then .error .InvalidProtocolID
  else if hasDoubleSpace (normalizeProtocolName protocolID.2).data then .error .InvalidProtocolID
  else if ¬ (1 ≤ (normalizeProtocolName protocolID.2).length ∧
      (normalizeProtocolName protocolID.2).data.all isProtocolChar) then
    .error .InvalidProtocolID
  else if jsEndsWith (normalizeProtocolName protocolID.2) " protocol" then
    .error .InvalidProtocolID
  else .ok (toString protocolID.1 ++ "-" ++ normalizeProtocolName protocolID.2 ++ "-" ++ keyID)

/-- A `KeyDeriver` instance: its immutable root private key.  (The
constructor maps the sentinel `'anyone'` to root key 1; the cached
`identityKey` is the field's derived public point, `identityKey` below.) -/
structure KeyDeriver where
  rootKey : Scalar
deriving DecidableEq

/-- The identity of a key deriver: the public point associated with the
root key. -/
def KeyDeriver.identityKey (kd : KeyDeriver) : Point :=
  PrivateKey.toPublicKey kd.rootKey

/-- `KeyDeriver.normalizeCounterparty`, translated from the source.  An
absent (`undefined`/`null`) argument is `none`.  Every branch assigns a
candidate key (parsing and pre-validating in the textual branch), and the
result is validated before being returned. -/
def KeyDeriver.normalizeCounterparty (kd : KeyDeriver) (counterparty : Option Counterparty) :
    Except KDError Point :=
  match counterparty with
  | none => .error .InvalidCounterparty
  | some c =>
    let branch : Except KDError Point :=
      match c with
      | .self => .ok (PrivateKey.toPublicKey kd.rootKey)
      | .anyone => .ok (PrivateKey.toPublicKey (1 : Scalar))
      | .pubKeyHex s =>
        match PublicKey.fromString s with
        | none => .error .InvalidCounterparty
        | some p => if PublicKey.validate p then .ok p else .error .InvalidCounterparty
      | .pubKey p => .ok p
    match branch with
    | .error e => .error e
    | .ok normalizedKey =>
      if PublicKey.validate normalizedKey then .ok normalizedKey
      else .error .InvalidCounterparty

/-- `KeyDeriver.derivePublicKey`, translated from the source.  A failure
of `normalizeCounterparty` is caught and rethrown as an invalid
counterparty failure. -/
def KeyDeriver.derivePublicKey (kd : KeyDeriver) (protocolID : WalletProtocol)
    (keyID : String) (counterparty : Option Counterparty) (forSelf : Bool := false) :
    Except KDError Point :=
  match kd.normalizeCounterparty counterparty with
  | .error _ => .error .InvalidCounterparty
  | .ok c =>
    match computeInvoiceNumber protocolID keyID with
    | .error e => .error e
    | .ok invoiceNumber =>
      let derivedKey : Point :=
        if forSelf then
          PrivateKey.toPublicKey (PrivateKey.deriveChild kd.rootKey c invoiceNumber)
        else
          PublicKey.deriveChild c kd.rootKey invoiceNumber
      if PublicKey.validate derivedKey then .ok derivedKey
      else .error .DerivationError

/-- `KeyDeriver.derivePrivateKey`, translated from the source. -/
def KeyDeriver.derivePrivateKey (kd : KeyDeriver) (protocolID : WalletProtocol)
    (keyID : String) (counterparty : Option Counterparty) :
    Except KDError Scalar :=
  match kd.normalizeCounterparty counterparty with
  | .error e => .error e
  | .ok c =>
    match computeInvoiceNumber protocolID keyID with
    | .error e => .error e
    | .ok invoiceNumber => .ok (PrivateKey.deriveChild kd.rootKey c invoiceNumber)

/-- `KeyDeriver.deriveSymmetricKey`, translated from the source: `anyone`
is defensively remapped to the fixed public point, the counterparty is
normalized, the derived public and private keys are computed, their
Diffie-Hellman shared point is taken, and the symmetric key material is
the raw bytes of its x-coordinate (the shared point must not be the point
at infinity, whose x-coordinate is null). -/
def KeyDeriver.deriveSymmetricKey (kd : KeyDeriver) (protocolID : WalletProtocol)
    (keyID : String) (counterparty : Option Counterparty) :
    Except KDError (List ℕ) :=
  let counterparty' : Option Counterparty :=
    match counterparty with
    | some .anyone => some (.pubKey (PrivateKey.toPublicKey (1 : Scalar)))
    | x => x
  match kd.normalizeCounterparty counterparty' with
  | .error e => .error e
  | .ok c =>
    match kd.derivePublicKey protocolID keyID (some (.pubKey c)) with
    | .error e => .error e
    | .ok derivedPublicKey =>
      match kd.derivePrivateKey protocolID keyID (some (.pubKey c)) with
      | .error e => .error e
      | .ok derivedPrivateKey =>
        let sharedSecret := dh derivedPrivateKey derivedPublicKey
        if sharedSecret = 0 then .error .DerivationError
        else .ok (xCoordBytes sharedSecret)

/-- `KeyDeriver.revealCounterpartySecret`, translated from the source:
refuse `self` outright, then normalize; refuse again whenever the test
child key derived for the own identity point coincides with the one
derived for the normalized counterparty (both with the fixed token
`"test"`); otherwise return the compressed encoding of the Diffie-Hellman
shared point between the root key and the counterparty. -/
def KeyDeriver.revealCounterpartySecret (kd : KeyDeriver)
    (counterparty : Option Counterparty) : Except KDError (List ℕ) :=
  if counterparty = some .self then .error .PolicyViolation
  else
    match kd.normalizeCounterparty counterparty with
    | .error e => .error e
    | .ok c =>
      let self := PrivateKey.toPublicKey kd.rootKey
      let keyDerivedBySelf := PrivateKey.toHex (PrivateKey.deriveChild kd.rootKey self "test")
      let keyDerivedByCounterparty := PrivateKey.toHex (PrivateKey.deriveChild kd.rootKey c "test")
      if keyDerivedBySelf = keyDerivedByCounterparty then .error .PolicyViolation
      else .ok (PublicKey.encode true (dh kd.rootKey c))

/-- `KeyDeriver.revealSpecificSecret`, translated from the source:
normalize the counterparty, compute the root-to-counterparty shared
point, build the invoice number, and return the HMAC of its UTF-8 bytes
keyed by the compressed shared point. -/
def KeyDeriver.revealSpecificSecret (kd : KeyDeriver)
    (counterparty : Option Counterparty) (protocolID : WalletProtocol)
    (keyID : String) : Except KDError (List ℕ) :=
  match kd.normalizeCounterparty counterparty with
  | .error e => .error e
  | .ok c =>
    let sharedSecret := dh kd.rootKey c
    match computeInvoiceNumber protocolID keyID with
    | .error e => .error e
    | .ok invoiceNumber =>
      .ok (sha256hmac (PublicKey.encode true sharedSecret) (utf8Bytes invoiceNumber))

/-! ## Helper lemmas -/

/-- Diffie-Hellman symmetry: each side reaches the same shared point from
its own scalar and the other's public point. -/
lemma dh_toPublicKey_comm (a b : Scalar) :
    dh a (PrivateKey.toPublicKey b) = dh b (PrivateKey.toPublicKey a) := by
  simp [dh, PrivateKey.toPublicKey, basePoint]
  ring

/-- The child-derivation tweak is reachable from either side of the
relationship. -/
lemma childOffset_toPublicKey_comm (a b : Scalar) (invoiceNumber : String) :
    childOffset a (PrivateKey.toPublicKey b) invoiceNumber
      = childOffset b (PrivateKey.toPublicKey a) invoiceNumber := by
  unfold childOffset
  rw [dh_toPublicKey_comm]

/-- The public point of one party's child private key is the child public
point the other party derives for it. -/
lemma deriveChild_agree (a b : Scalar) (invoiceNumber : String) :
    PrivateKey.toPublicKey (PrivateKey.deriveChild a (PrivateKey.toPublicKey b) invoiceNumber)
      = PublicKey.deriveChild (PrivateKey.toPublicKey a) b invoiceNumber := by
  unfold PrivateKey.deriveChild PublicKey.deriveChild
  rw [childOffset_toPublicKey_comm a b]
  unfold PrivateKey.toPublicKey basePoint
  ring

/-- Evaluation of `normalizeCounterparty` on an explicit public point. -/
lemma normalizeCounterparty_pubKey (kd : KeyDeriver) (p : Point) :
    kd.normalizeCounterparty (some (.pubKey p)) = .ok p := by
  simp [KeyDeriver.normalizeCounterparty, PublicKey.validate]

/-- Evaluation of `derivePrivateKey` on an explicit public point and a
valid namespace token. -/
lemma derivePrivateKey_pubKey (kd : KeyDeriver) (p : Point)
    (protocolID : WalletProtocol) (keyID invoiceNumber : String)
    (h : computeInvoiceNumber protocolID keyID = .ok invoiceNumber) :
    kd.derivePrivateKey protocolID keyID (some (.pubKey p))
      = .ok (PrivateKey.deriveChild kd.rootKey p invoiceNumber) := by
  simp [KeyDeriver.derivePrivateKey, normalizeCounterparty_pubKey, h]

/-- Evaluation of `derivePublicKey` on an explicit public point and a
valid namespace token. -/
lemma derivePublicKey_pubKey (kd : KeyDeriver) (p : Point)
    (protocolID : WalletProtocol) (keyID invoiceNumber : String) (forSelf : Bool)
    (h : computeInvoiceNumber protocolID keyID = .ok invoiceNumber) :
    kd.derivePublicKey protocolID keyID (some (.pubKey p)) forSelf
      = .ok (if forSelf then
              PrivateKey.toPublicKey (PrivateKey.deriveChild kd.rootKey p invoiceNumber)
            else PublicKey.deriveChild p kd.rootKey invoiceNumber) := by
  simp [KeyDeriver.derivePublicKey, normalizeCounterparty_pubKey, h, PublicKey.validate]

/-- Decoding of a hexadecimal digit character. -/
def unhexChar (c : Char) : ℕ := if c.toNat ≤ 57 then c.toNat - 48 else c.toNat - 87

/-- Decoding of a little-endian hexadecimal character list. -/
def ofHexChars : List Char → ℕ
| [] => 0
| c :: r => unhexChar c + 16 * ofHexChars r

lemma unhexChar_hexChar (d : ℕ) (h : d < 16) : unhexChar (hexChar d) = d := by
  interval_cases d <;> decide

lemma ofHexChars_hexCharsAux (fuel : ℕ) : ∀ m : ℕ, m ≤ fuel →
    ofHexChars (hexCharsAux fuel m) = m := by
  induction fuel with
  | zero =>
    intro m hm
    have : m = 0 := by omega
    simp [this, hexCharsAux, ofHexChars]
  | succ fuel ih =>
    intro m hm
    unfold hexCharsAux
    by_cases hm0 : m = 0
    · simp [hm0, ofHexChars]
    · simp only [hm0, if_false, ofHexChars]
      rw [unhexChar_hexChar _ (Nat.mod_lt _ (by norm_num)), ih (m / 16) (by omega)]
      omega

/-- The modelled hexadecimal serialization of a private scalar is
injective. -/
lemma toHex_injective (x y : Scalar) (h : PrivateKey.toHex x = PrivateKey.toHex y) :
    x = y := by
  unfold PrivateKey.toHex at h
  have hdata : (hexCharsAux x.val x.val).reverse = (hexCharsAux y.val y.val).reverse :=
    congrArg String.data h
  have hlist : hexCharsAux x.val x.val = hexCharsAux y.val y.val := by
    have := congrArg List.reverse hdata
    simpa using this
  have hx := ofHexChars_hexCharsAux x.val x.val le_rfl
  have hy := ofHexChars_hexCharsAux y.val y.val le_rfl
  have hval : x.val = y.val := by rw [← hx, ← hy, hlist]
  exact ZMod.val_injective n hval

/-- Inversion of a successful `computeInvoiceNumber` call: the security
level is 0, 1 or 2, the token has the documented format, and the
normalized protocol name passed the character-class check. -/
lemma computeInvoiceNumber_ok_inv {s : Int} {nm keyID t : String}
    (h : computeInvoiceNumber (s, nm) keyID = .ok t) :
    (s = 0 ∨ s = 1 ∨ s = 2) ∧
    t = toString s ++ "-" ++ normalizeProtocolName nm ++ "-" ++ keyID ∧
    (normalizeProtocolName nm).data.all isProtocolChar = true := by
  unfold computeInvoiceNumber at h
  split_ifs at h with h1 h2 h3 h4 h5 h6 h7 h8 <;>
    simp only [reduceCtorEq] at h
  simp only [Except.ok.injEq] at h
  refine ⟨by omega, h.symm, ?_⟩
  push_neg at h7
  exact h7.2

/-- The protocol-name conditions that the spec lists as failing with
`InvalidProtocolID`, transcribed from the claim wording, for the
already-normalized (lower-cased, trimmed) name. -/
def protocolNameViolation (name : String) : Prop :=
  name.length < 5 ∨
  (400 < name.length ∧ jsStartsWith name "specific linkage revelation " = false) ∨
  (jsStartsWith name "specific linkage revelation " = true ∧ 430 < name.length) ∨
  hasDoubleSpace name.data = true ∨
  ¬ name.data.all isProtocolChar = true ∨
  jsEndsWith name " protocol" = true

/-- Classification of the InvalidProtocolID and InvalidKeyID failures
of the token builder, following the code check precedence. -/
lemma invoiceNumber_IPID_iff (s : Int) (nm keyID : String) :
    computeInvoiceNumber (s, nm) keyID = .error .InvalidProtocolID ↔
      (s < 0 ∨ 2 < s) ∨
      (0 ≤ s ∧ s ≤ 2 ∧ 1 ≤ keyID.length ∧ keyID.length ≤ 800 ∧
        protocolNameViolation (normalizeProtocolName nm)) := by
  unfold computeInvoiceNumber protocolNameViolation
  split_ifs with h1 h2 h3 h4 h5 h6 h7 h8 <;>
    simp only [Except.error.injEq, reduceCtorEq, false_iff, true_iff, iff_false, iff_true] <;>
    (try dsimp only at *) <;> (try push_neg at h1)
  case pos => exact Or.inl h1
  case pos =>
    rintro (h | ⟨_, _, _, hk, _⟩) <;> omega
  case pos =>
    rintro (h | ⟨_, _, hk, _, _⟩) <;> omega
  case pos =>
    obtain ⟨h41, h42⟩ := h4
    refine Or.inr ⟨by omega, by omega, by omega, by omega, ?_⟩
    rcases Bool.eq_false_or_eq_true (jsStartsWith (normalizeProtocolName nm) "specific linkage revelation ") with hb | hb
    · exact Or.inr (Or.inr (Or.inl ⟨hb, h42 hb⟩))
    · exact Or.inr (Or.inl ⟨h41, hb⟩)
  case pos =>
    exact Or.inr ⟨by omega, by omega, by omega, by omega, Or.inl h5⟩
  case pos =>
    exact Or.inr ⟨by omega, by omega, by omega, by omega, Or.inr (Or.inr (Or.inr (Or.inl h6)))⟩
  case pos =>
    exact Or.inr ⟨by omega, by omega, by omega, by omega,
      Or.inr (Or.inr (Or.inr (Or.inr (Or.inr h8))))⟩
  case neg =>
    rintro (h | ⟨_, _, _, _, hV⟩)
    · omega
    · rcases hV with h' | ⟨ha, hb⟩ | ⟨ha, hb⟩ | h' | h' | h'
      · omega
      · exact h4 ⟨ha, fun hc => by rw [hb] at hc; cases hc⟩
      · exact h4 ⟨by omega, fun _ => hb⟩
      · exact absurd h' h6
      · exact h' h7.2
      · exact absurd h' h8
  case neg =>
    have hall : ¬ (normalizeProtocolName nm).data.all isProtocolChar = true :=
      fun ha => h7 ⟨by omega, ha⟩
    exact Or.inr ⟨by omega, by omega, by omega, by omega,
      Or.inr (Or.inr (Or.inr (Or.inr (Or.inl hall))))⟩

lemma invoiceNumber_IKID_iff (s : Int) (nm keyID : String) :
    computeInvoiceNumber (s, nm) keyID = .error .InvalidKeyID ↔
      0 ≤ s ∧ s ≤ 2 ∧ (keyID.length < 1 ∨ 800 < keyID.length) := by
  unfold computeInvoiceNumber
  split_ifs with h1 h2 h3 h4 h5 h6 h7 h8 <;>
    simp only [Except.error.injEq, reduceCtorEq, false_iff, true_iff, iff_false, iff_true] <;>
    (try dsimp only at *) <;> (try push_neg at h1)
  case pos => rintro ⟨_, _, _⟩; omega
  case pos => exact ⟨by omega, by omega, Or.inr h2⟩
  case pos => exact ⟨by omega, by omega, Or.inl h3⟩
  all_goals (rintro ⟨_, _, hk⟩; omega)

/-- Characters of the protocol-name class are never the separator. -/
lemma isProtocolChar_ne_dash {c : Char} (h : isProtocolChar c = true) : c ≠ '-' := by
  intro he
  subst he
  revert h
  decide

/-- Splitting a separator-free list followed by the separator is
unambiguous. -/
lemma append_dash_inj : ∀ (xs : List Char) (ys : List Char) (as bs : List Char),
    (∀ c ∈ xs, c ≠ '-') → (∀ c ∈ ys, c ≠ '-') →
    xs ++ '-' :: as = ys ++ '-' :: bs → xs = ys ∧ as = bs := by
  intro xs
  induction xs with
  | nil =>
    intro ys as bs _ hy h
    cases ys with
    | nil => simpa using h
    | cons y ys' =>
      simp only [List.nil_append, List.cons_append, List.cons.injEq] at h
      exact absurd h.1.symm (hy y (List.mem_cons_self y ys'))
  | cons x xs' ih =>
    intro ys as bs hx hy h
    cases ys with
    | nil =>
      simp only [List.cons_append, List.nil_append, List.cons.injEq] at h
      exact absurd h.1 (hx x (List.mem_cons_self x xs'))
    | cons y ys' =>
      simp only [List.cons_append, List.cons.injEq] at h
      obtain ⟨hxy, ht⟩ := h
      obtain ⟨hh1, hh2⟩ := ih ys' as bs (fun c hc => hx c (List.mem_cons_of_mem _ hc))
        (fun c hc => hy c (List.mem_cons_of_mem _ hc)) ht
      exact ⟨by rw [hxy, hh1], hh2⟩

/-! ## Claims -/

/-- C1.  Agreement law: for any two deriver instances with root keys `a`
and `b` and any protocol identifier / key identifier accepted by
namespace-token validation, the public point of `derivePrivateKey`
computed by instance `a` with counterparty = `b`'s identity key equals
`derivePublicKey(..., counterparty = a's identity key, forSelf := false)`
computed by instance `b`. -/
theorem agreement_law (a b : Scalar) (protocolID : WalletProtocol)
    (keyID invoiceNumber : String)
    (h : computeInvoiceNumber protocolID keyID = .ok invoiceNumber) :
    Except.map PrivateKey.toPublicKey
        (KeyDeriver.derivePrivateKey ⟨a⟩ protocolID keyID
          (some (.pubKey (KeyDeriver.identityKey ⟨b⟩))))
      = KeyDeriver.derivePublicKey ⟨b⟩ protocolID keyID
          (some (.pubKey (KeyDeriver.identityKey ⟨a⟩))) false := by
  rw [derivePrivateKey_pubKey _ _ _ _ _ h, derivePublicKey_pubKey _ _ _ _ _ _ h]
  simp [Except.map, KeyDeriver.identityKey]
  exact deriveChild_agree a b invoiceNumber

/-- Witness for C1 at concrete root keys 2 and 3 and the protocol
identifier (0, "testprotocol") with key identifier "k1". -/
theorem agreement_law_witness :
    Except.map PrivateKey.toPublicKey
        (KeyDeriver.derivePrivateKey ⟨2⟩ (0, "testprotocol") "k1"
          (some (.pubKey (KeyDeriver.identityKey ⟨3⟩))))
      = KeyDeriver.derivePublicKey ⟨3⟩ (0, "testprotocol") "k1"
          (some (.pubKey (KeyDeriver.identityKey ⟨2⟩))) false :=
  agreement_law 2 3 (0, "testprotocol") "k1" "0-testprotocol-k1" (by decide)

/-- C3, as stated, is false: with root keys 1 and 2,
`derivePublicKey(forSelf := true)` computed by instance 1 for
counterparty = identity(2) is instance 1's own derived key and differs
from the public point of `derivePrivateKey` computed by instance 2 for
counterparty = identity(1). -/
theorem roundTrip_claim_cex :
    KeyDeriver.derivePublicKey ⟨1⟩ (0, "testprotocol") "k1"
        (some (.pubKey (KeyDeriver.identityKey ⟨2⟩))) true
      ≠ Except.map PrivateKey.toPublicKey
          (KeyDeriver.derivePrivateKey ⟨2⟩ (0, "testprotocol") "k1"
            (some (.pubKey (KeyDeriver.identityKey ⟨1⟩)))) := by
  decide

/-- C3 (amended).  Round trip (cross-instance): for any two deriver
instances `a` and `b` and any valid protocol identifier / key identifier,
`derivePublicKey(protocolID, keyID, counterparty = identity(b),
forSelf := true)` computed by instance `a` equals
`derivePublicKey(protocolID, keyID, counterparty = identity(a),
forSelf := false)` computed by instance `b`. -/
theorem roundTrip_cross_instance (a b : Scalar) (protocolID : WalletProtocol)
    (keyID invoiceNumber : String)
    (h : computeInvoiceNumber protocolID keyID = .ok invoiceNumber) :
    KeyDeriver.derivePublicKey ⟨a⟩ protocolID keyID
        (some (.pubKey (KeyDeriver.identityKey ⟨b⟩))) true
      = KeyDeriver.derivePublicKey ⟨b⟩ protocolID keyID
          (some (.pubKey (KeyDeriver.identityKey ⟨a⟩))) false := by
  rw [derivePublicKey_pubKey _ _ _ _ _ _ h, derivePublicKey_pubKey _ _ _ _ _ _ h]
  simp [KeyDeriver.identityKey]
  exact deriveChild_agree a b invoiceNumber

/-- Witness for the amended C3 at concrete root keys 1 and 2. -/
theorem roundTrip_cross_instance_witness :
    KeyDeriver.derivePublicKey ⟨1⟩ (0, "testprotocol") "k1"
        (some (.pubKey (KeyDeriver.identityKey ⟨2⟩))) true
      = KeyDeriver.derivePublicKey ⟨2⟩ (0, "testprotocol") "k1"
          (some (.pubKey (KeyDeriver.identityKey ⟨1⟩))) false :=
  roundTrip_cross_instance 1 2 (0, "testprotocol") "k1" "0-testprotocol-k1" (by decide)

/-- The Diffie-Hellman point between one party's derived private key and
the derived public key it computes for the counterparty is symmetric in
the two root keys. -/
lemma sharedPoint_symm (a b : Scalar) (invoiceNumber : String) :
    dh (PrivateKey.deriveChild a (PrivateKey.toPublicKey b) invoiceNumber)
        (PublicKey.deriveChild (PrivateKey.toPublicKey b) a invoiceNumber)
      = dh (PrivateKey.deriveChild b (PrivateKey.toPublicKey a) invoiceNumber)
          (PublicKey.deriveChild (PrivateKey.toPublicKey a) b invoiceNumber) := by
  unfold dh PrivateKey.deriveChild PublicKey.deriveChild
  rw [childOffset_toPublicKey_comm a b]
  unfold PrivateKey.toPublicKey basePoint
  ring

/-- C2.  Symmetry law: two deriver instances with root keys `a` and `b`,
computing `deriveSymmetricKey` for the same valid protocol identifier /
key identifier with counterparty set to each other's identity key, obtain
identical results (in particular identical key material on success). -/
theorem symmetric_key_symmetry (a b : Scalar) (protocolID : WalletProtocol)
    (keyID invoiceNumber : String)
    (h : computeInvoiceNumber protocolID keyID = .ok invoiceNumber) :
    KeyDeriver.deriveSymmetricKey ⟨a⟩ protocolID keyID
        (some (.pubKey (KeyDeriver.identityKey ⟨b⟩)))
      = KeyDeriver.deriveSymmetricKey ⟨b⟩ protocolID keyID
          (some (.pubKey (KeyDeriver.identityKey ⟨a⟩))) := by
  simp only [KeyDeriver.deriveSymmetricKey, KeyDeriver.identityKey,
    normalizeCounterparty_pubKey, derivePublicKey_pubKey _ _ _ _ _ _ h,
    derivePrivateKey_pubKey _ _ _ _ _ h]
  simp only [if_neg (by simp : ¬ False), Bool.false_eq_true, if_false]
  rw [sharedPoint_symm a b]

/-- Witness for C2 at concrete root keys 2 and 3. -/
theorem symmetric_key_symmetry_witness :
    KeyDeriver.deriveSymmetricKey ⟨2⟩ (0, "testprotocol") "k1"
        (some (.pubKey (KeyDeriver.identityKey ⟨3⟩)))
      = KeyDeriver.deriveSymmetricKey ⟨3⟩ (0, "testprotocol") "k1"
          (some (.pubKey (KeyDeriver.identityKey ⟨2⟩))) :=
  symmetric_key_symmetry 2 3 (0, "testprotocol") "k1" "0-testprotocol-k1" (by decide)

/-- C10.  Within a single deriver instance, for every counterparty that
normalizes successfully and every valid protocol identifier / key
identifier, `derivePublicKey(..., forSelf := true)` equals the public
point of `derivePrivateKey` on the same arguments. -/
theorem derive_roundTrip_same_instance (kd : KeyDeriver)
    (protocolID : WalletProtocol) (keyID invoiceNumber : String)
    (counterparty : Option Counterparty) (c : Point)
    (h1 : kd.normalizeCounterparty counterparty = .ok c)
    (h2 : computeInvoiceNumber protocolID keyID = .ok invoiceNumber) :
    kd.derivePublicKey protocolID keyID counterparty true
      = Except.map PrivateKey.toPublicKey (kd.derivePrivateKey protocolID keyID counterparty) := by
  simp [KeyDeriver.derivePublicKey, KeyDeriver.derivePrivateKey, h1, h2,
    PublicKey.validate, Except.map]

set_option maxRecDepth 1000000

/-- A "specific linkage revelation" protocol name of the given total
length (the 28-character prefix padded with `a`s). -/
def slrName (len : ℕ) : String :=
  "specific linkage revelation " ++ String.mk (List.replicate (len - 28) 'a')

/-- C4, as stated, is false: it demands `InvalidProtocolID` exactly when
the security level or the protocol name is invalid, but at security level
0, name "abc" (shorter than 5 characters) and an empty key identifier the
builder raises `InvalidKeyID` — the key-identifier check precedes the
protocol-name checks. -/
theorem invoiceNumber_claim_cex :
    protocolNameViolation (normalizeProtocolName "abc") ∧
    computeInvoiceNumber ((0 : Int), "abc") "" = .error .InvalidKeyID ∧
    computeInvoiceNumber ((0 : Int), "abc") "" ≠ .error .InvalidProtocolID := by
  refine ⟨Or.inl (by decide), by decide, by decide⟩

/-- C4 (amended).  The token builder fails with `InvalidProtocolID`
exactly when the security level is outside {0,1,2}, or the security level
and the key identifier are valid and the lower-cased trimmed protocol
name violates the name rules (length < 5; length > 400 without the
"specific linkage revelation " prefix; length > 430 with it; two
consecutive spaces; a character outside [a-z0-9 ]; ending in
" protocol"); and fails with `InvalidKeyID` exactly when the security
level is valid and the key identifier length is outside 1..800.  In
particular name length 430 with the prefix succeeds and 431 fails, name
length 4 fails, and key identifier lengths 0 and 801 fail. -/
theorem invoiceNumber_error_classification :
    (∀ (s : Int) (nm keyID : String),
      (computeInvoiceNumber (s, nm) keyID = .error .InvalidProtocolID ↔
        (s < 0 ∨ 2 < s) ∨
        (0 ≤ s ∧ s ≤ 2 ∧ 1 ≤ keyID.length ∧ keyID.length ≤ 800 ∧
          protocolNameViolation (normalizeProtocolName nm))) ∧
      (computeInvoiceNumber (s, nm) keyID = .error .InvalidKeyID ↔
        0 ≤ s ∧ s ≤ 2 ∧ (keyID.length < 1 ∨ 800 < keyID.length))) ∧
    (computeInvoiceNumber ((0 : Int), slrName 430) "k1").isOk = true ∧
    computeInvoiceNumber ((0 : Int), slrName 431) "k1" = .error .InvalidProtocolID ∧
    computeInvoiceNumber ((0 : Int), "abcd") "k1" = .error .InvalidProtocolID ∧
    computeInvoiceNumber ((0 : Int), "testprotocol") "" = .error .InvalidKeyID ∧
    computeInvoiceNumber ((0 : Int), "testprotocol") ⟨List.replicate 801 'k'⟩
      = .error .InvalidKeyID :=
  ⟨fun s nm keyID => ⟨invoiceNumber_IPID_iff s nm keyID, invoiceNumber_IKID_iff s nm keyID⟩,
   by decide, by decide, by decide, by decide, by decide⟩

/-- C9.  Namespace tokens do not collide: two validated triples with
equal token strings have equal security levels, equal lower-cased trimmed
protocol names, and equal key identifiers. -/
theorem invoiceNumber_injective (s1 s2 : Int) (n1 n2 k1 k2 t : String)
    (h1 : computeInvoiceNumber (s1, n1) k1 = .ok t)
    (h2 : computeInvoiceNumber (s2, n2) k2 = .ok t) :
    s1 = s2 ∧ normalizeProtocolName n1 = normalizeProtocolName n2 ∧ k1 = k2 := by
  obtain ⟨hs1, ht1, hall1⟩ := computeInvoiceNumber_ok_inv h1
  obtain ⟨hs2, ht2, hall2⟩ := computeInvoiceNumber_ok_inv h2
  have ht := ht1.symm.trans ht2
  have hd := congrArg String.data ht
  simp only [String.data_append, List.append_assoc,
    show ("-" : String).data = ['-'] from rfl, List.singleton_append] at hd
  have hn1 : ∀ c ∈ (normalizeProtocolName n1).data, c ≠ '-' :=
    fun c hc => isProtocolChar_ne_dash (List.all_eq_true.mp hall1 c hc)
  have hn2 : ∀ c ∈ (normalizeProtocolName n2).data, c ≠ '-' :=
    fun c hc => isProtocolChar_ne_dash (List.all_eq_true.mp hall2 c hc)
  rcases hs1 with rfl | rfl | rfl <;> rcases hs2 with rfl | rfl | rfl <;>
    simp only [show (toString (0 : Int)).data = ['0'] from by decide,
      show (toString (1 : Int)).data = ['1'] from by decide,
      show (toString (2 : Int)).data = ['2'] from by decide,
      List.singleton_append, List.cons.injEq] at hd <;>
    [skip; exact absurd hd.1 (by decide); exact absurd hd.1 (by decide);
     exact absurd hd.1 (by decide); skip; exact absurd hd.1 (by decide);
     exact absurd hd.1 (by decide); exact absurd hd.1 (by decide); skip] <;>
    · have hd2 := hd.2
      injection hd2 with _ hd2
      obtain ⟨hn, hk⟩ := append_dash_inj _ _ _ _ hn1 hn2 hd2
      exact ⟨rfl, String.ext hn, String.ext hk⟩

/-- Witness for C9: two syntactically different protocol names with the
same normalization and the same token. -/
theorem invoiceNumber_injective_witness :
    (0 : Int) = 0 ∧
    normalizeProtocolName "testprotocol" = normalizeProtocolName "TestProtocol" ∧
    "k1" = "k1" :=
  invoiceNumber_injective 0 0 "testprotocol" "TestProtocol" "k1" "k1"
    "0-testprotocol-k1" (by decide) (by decide)

/-- C5.  The namespace-token builder is a deterministic pure function:
every successful call returns exactly
`"{securityLevel}-{lowercasedTrimmedProtocolName}-{keyID}"`, and
(0, "testprotocol", "k1") yields "0-testprotocol-k1".  (Identical inputs
yield the identical token because the builder is a function.) -/
theorem invoiceNumber_format :
    (∀ (s : Int) (nm keyID t : String),
      computeInvoiceNumber (s, nm) keyID = .ok t →
        t = toString s ++ "-" ++ normalizeProtocolName nm ++ "-" ++ keyID) ∧
    computeInvoiceNumber (0, "testprotocol") "k1" = .ok "0-testprotocol-k1" :=
  ⟨fun _ _ _ _ h => (computeInvoiceNumber_ok_inv h).2.1, by decide⟩

/-- Witness for C5: the format equation instantiated at
(0, "testprotocol", "k1"). -/
theorem invoiceNumber_format_witness :
    "0-testprotocol-k1"
      = toString (0 : Int) ++ "-" ++ normalizeProtocolName "testprotocol" ++ "-" ++ "k1" :=
  invoiceNumber_format.1 0 "testprotocol" "k1" "0-testprotocol-k1" (by decide)

/-- C6.  `normalizeCounterparty` maps `self` to the instance's own
identity key; maps `anyone` to the fixed public point scalar 1 × base
point, the same on every instance independently of the root key; parses a
textual value as a public point (failing with `InvalidCounterparty` when
it does not parse); fails with `InvalidCounterparty` on absent input; and
whenever it returns, the returned point is validated on-curve. -/
theorem normalizeCounterparty_spec (kd : KeyDeriver) :
    kd.normalizeCounterparty (some .self) = .ok kd.identityKey ∧
    kd.normalizeCounterparty (some .anyone)
      = .ok (PrivateKey.toPublicKey (1 : Scalar)) ∧
    kd.normalizeCounterparty none = .error .InvalidCounterparty ∧
    (∀ s, PublicKey.fromString s = none →
      kd.normalizeCounterparty (some (.pubKeyHex s)) = .error .InvalidCounterparty) ∧
    (∀ s p, PublicKey.fromString s = some p →
      kd.normalizeCounterparty (some (.pubKeyHex s)) = .ok p) ∧
    (∀ counterparty p, kd.normalizeCounterparty counterparty = .ok p →
      PublicKey.validate p = true) := by
  refine ⟨rfl, rfl, rfl, ?_, ?_, ?_⟩
  · intro s hs
    simp [KeyDeriver.normalizeCounterparty, hs]
  · intro s p hs
    simp [KeyDeriver.normalizeCounterparty, hs, PublicKey.validate]
  · intro counterparty p _
    rfl

/-- Witness for C6 at root key 2: the `self` branch, and the textual
branch on the serialization of identity(3). -/
theorem normalizeCounterparty_spec_witness :
    KeyDeriver.normalizeCounterparty ⟨2⟩ (some (.pubKeyHex (PublicKey.toStr (KeyDeriver.identityKey ⟨3⟩))))
      = .ok (KeyDeriver.identityKey ⟨3⟩) ∧
    KeyDeriver.normalizeCounterparty ⟨2⟩ (some (.pubKeyHex "not a key"))
      = .error .InvalidCounterparty :=
  ⟨(normalizeCounterparty_spec ⟨2⟩).2.2.2.2.1 _ _ (by decide),
   (normalizeCounterparty_spec ⟨2⟩).2.2.2.1 _ (by decide)⟩

/-- C7.  `revealCounterpartySecret` fails with `PolicyViolation` for
counterparty `self`; for a non-`self` counterparty that normalizes to
`c`, it fails with `PolicyViolation` exactly when the child key derived
from the root key tweaked by (own identity point, "test") equals the
child key tweaked by (`c`, "test"), and otherwise returns the compressed
byte encoding of the Diffie-Hellman shared point between the root key and
`c`. -/
theorem revealCounterpartySecret_spec (kd : KeyDeriver) :
    kd.revealCounterpartySecret (some .self) = .error .PolicyViolation ∧
    (∀ counterparty c, counterparty ≠ some Counterparty.self →
      kd.normalizeCounterparty counterparty = .ok c →
      (PrivateKey.deriveChild kd.rootKey kd.identityKey "test"
          = PrivateKey.deriveChild kd.rootKey c "test" →
        kd.revealCounterpartySecret counterparty = .error .PolicyViolation) ∧
      (PrivateKey.deriveChild kd.rootKey kd.identityKey "test"
          ≠ PrivateKey.deriveChild kd.rootKey c "test" →
        kd.revealCounterpartySecret counterparty
          = .ok (PublicKey.encode true (dh kd.rootKey c)))) := by
  refine ⟨rfl, ?_⟩
  intro counterparty c hne hnorm
  constructor
  · intro heq
    simp only [KeyDeriver.identityKey] at heq
    simp [KeyDeriver.revealCounterpartySecret, hne, hnorm, heq]
  · intro hne2
    have hhex : PrivateKey.toHex (PrivateKey.deriveChild kd.rootKey (PrivateKey.toPublicKey kd.rootKey) "test")
        ≠ PrivateKey.toHex (PrivateKey.deriveChild kd.rootKey c "test") := by
      intro h
      exact hne2 (by simpa [KeyDeriver.identityKey] using toHex_injective _ _ h)
    simp [KeyDeriver.revealCounterpartySecret, hne, hnorm, hhex]

/-- Witness for C7 at root key 2 and counterparty identity(3): the guard
does not fire and the compressed shared point is returned. -/
theorem revealCounterpartySecret_spec_witness :
    KeyDeriver.revealCounterpartySecret ⟨2⟩ (some (.pubKey (KeyDeriver.identityKey ⟨3⟩)))
      = .ok (PublicKey.encode true (dh 2 (KeyDeriver.identityKey ⟨3⟩))) :=
  ((revealCounterpartySecret_spec ⟨2⟩).2 _ _ (by decide) (by decide)).2 (by decide)

/-- C8.  `revealSpecificSecret`, for every counterparty normalizing to
`c` and every valid protocol identifier / key identifier, returns the
HMAC keyed by the compressed byte encoding of the Diffie-Hellman shared
point between the root key and `c`, over the UTF-8 bytes of the namespace
token — with no self-equality guard applied. -/
theorem revealSpecificSecret_spec (kd : KeyDeriver)
    (counterparty : Option Counterparty) (c : Point)
    (protocolID : WalletProtocol) (keyID invoiceNumber : String)
    (h1 : kd.normalizeCounterparty counterparty = .ok c)
    (h2 : computeInvoiceNumber protocolID keyID = .ok invoiceNumber) :
    kd.revealSpecificSecret counterparty protocolID keyID
      = .ok (sha256hmac (PublicKey.encode true (dh kd.rootKey c))
              (utf8Bytes invoiceNumber)) := by
  simp [KeyDeriver.revealSpecificSecret, h1, h2]

/-- Witness for C8 at root key 2 and counterparty `self` — the call
succeeds even for the own identity key, demonstrating the absence of a
self-equality guard. -/
theorem revealSpecificSecret_spec_witness :
    KeyDeriver.revealSpecificSecret ⟨2⟩ (some .self) (0, "testprotocol") "k1"
      = .ok (sha256hmac (PublicKey.encode true (dh 2 (KeyDeriver.identityKey ⟨2⟩)))
              (utf8Bytes "0-testprotocol-k1")) :=
  revealSpecificSecret_spec ⟨2⟩ (some .self) (KeyDeriver.identityKey ⟨2⟩)
    (0, "testprotocol") "k1" "0-testprotocol-k1" (by decide) (by decide)

/-- Witness for C10 at root key 2 and counterparty identity(3). -/
theorem derive_roundTrip_same_instance_witness :
    KeyDeriver.derivePublicKey ⟨2⟩ (0, "testprotocol") "k1"
        (some (.pubKey (KeyDeriver.identityKey ⟨3⟩))) true
      = Except.map PrivateKey.toPublicKey
          (KeyDeriver.derivePrivateKey ⟨2⟩ (0, "testprotocol") "k1"
            (some (.pubKey (KeyDeriver.identityKey ⟨3⟩)))) :=
  derive_roundTrip_same_instance ⟨2⟩ (0, "testprotocol") "k1" "0-testprotocol-k1"
    (some (.pubKey (KeyDeriver.identityKey ⟨3⟩))) (KeyDeriver.identityKey ⟨3⟩)
    (by decide) (by decide)

end TsSdk
